import Mathlib

/-!
Verification of the adapter execution and prompt-construction layer of the
cli-agent-openai-adapter repository: a shallow embedding, in Lean, of the
output normalizer, the prompt builders, the subprocess failure
classification, the HTTP error mapping, the adapter factory and the
token-estimate usage block, together with theorems settling the frozen
claims about that code.

Conventions of the embedding:
* JavaScript strings are modelled as Lean `String`/`List Char`; where the
  JavaScript `.length` (UTF-16 code units) matters it is modelled by
  `utf16Length`.
* Regular-expression based global replacements are modelled by recursive
  functions that reproduce the scan/match/skip semantics of
  `String.prototype.replace` with the `g` and `m` flags for the concrete
  patterns appearing in the source.
* `JSON.parse` / `JSON.stringify` are modelled by an executable JSON
  parser and serializer over an inductive `Json` type.  JSON numbers are
  carried as their literal text; the claims under verification never
  exercise numeric re-serialization.
-/

namespace CliAdapter

/-! ## JavaScript character classes -/

/-- Line terminators of JavaScript regular expressions: the characters not
matched by `.` and after which `^` matches in multiline mode
(LF, CR, LINE SEPARATOR, PARAGRAPH SEPARATOR). -/
def isLineTermChar (c : Char) : Bool :=
  c == '\n' || c == '\r' || c == '\u2028' || c == '\u2029'

/-- The character class `\s` of JavaScript regular expressions, which is
also the set of characters removed by `String.prototype.trim`. -/
def isJsWs (c : Char) : Bool :=
  c == ' ' || c == '\t' || c == '\n' || c == '\r' || c == '\x0B' || c == '\x0C' ||
  c == '\u00A0' || c == '\u1680' || ('\u2000' ≤ c && c ≤ '\u200A') || c == '\u2028' ||
  c == '\u2029' || c == '\u202F' || c == '\u205F' || c == '\u3000' || c == '\uFEFF'

/-- The character class of the spinner-removal regex
`/^\s*[\[⠋⠙⠹⠸⠼⠴⠦⠧⠇⠏\]]/gm` in `cleanOutput`. -/
def isSpinnerChar (c : Char) : Bool :=
  c == '[' || c == ']' || c == '⠋' || c == '⠙' || c == '⠹' || c == '⠸' ||
  c == '⠼' || c == '⠴' || c == '⠦' || c == '⠧' || c == '⠇' || c == '⠏'

/-! ## strip-ansi

The adapters call the `strip-ansi` package.  The repository's own test
suites model that dependency as the global removal of SGR sequences
(`/\x1B\[[0-9;]*m/g`, see `src/__tests__/*.test.ts`), and that is the model
used here. -/

/-- A character allowed in the body of an SGR sequence: a digit or `;`. -/
def isSgrBody (c : Char) : Bool := c.isDigit || c == ';'

/-- Match `[` `[0-9;]*` `m` at the head of the list; on success return the
suffix after the match. -/
def matchSgrTail (l : List Char) : Option (List Char) :=
  match l with
  | c :: rest =>
    if c = '[' then
      match rest.dropWhile isSgrBody with
      | d :: rest2 => if d = 'm' then some rest2 else none
      | [] => none
    else none
  | [] => none

theorem matchSgrTail_length {l r : List Char} (h : matchSgrTail l = some r) :
    r.length < l.length := by
  unfold matchSgrTail at h
  split at h
  case h_2 => exact absurd h (by simp)
  case h_1 c rest =>
    split at h
    case isFalse => exact absurd h (by simp)
    case isTrue =>
      have hlen : (rest.dropWhile isSgrBody).length ≤ rest.length :=
        (List.dropWhile_sublist isSgrBody).length_le
      split at h
      case h_2 => exact absurd h (by simp)
      case h_1 d rest2 heq =>
        split at h
        case isFalse => exact absurd h (by simp)
        case isTrue =>
          injection h with h2
          subst h2
          simp [heq] at hlen
          simp
          omega

/-- Global removal of SGR escape sequences (the model of `stripAnsi`). -/
def stripAnsiL : List Char → List Char
  | [] => []
  | c :: rest =>
    if c = '\x1B' then
      match h : matchSgrTail rest with
      | some rest2 => stripAnsiL rest2
      | none => c :: stripAnsiL rest
    else c :: stripAnsiL rest
termination_by l => l.length
decreasing_by
  · exact Nat.lt_succ_of_lt (matchSgrTail_length h)
  · simp
  · simp

def stripAnsi (s : String) : String := ⟨stripAnsiL s.data⟩

/-! ## cleanOutput

`ClaudeCodeAdapter.cleanOutput` and `GeminiCLIAdapter.cleanOutput` are the
same function:

    let cleaned = stripAnsi(stdout);
    cleaned = cleaned.replace(/^.*\r/gm, '');
    cleaned = cleaned.replace(/^\s*[\[spinner-glyphs\]]/gm, '');
    cleaned = cleaned.trim();
    return cleaned;
-/

/-- The replacement `replace(/^.*\r/gm, '')`.  A match starts at a line
start (`^` with the `m` flag), spans a maximal run of non-terminator
characters (`.` never matches a line terminator) and ends at a `\r`; the
position after a removed match is again a line start.  `pending` holds the
current run of non-terminator characters, reversed. -/
def removeCrAux (pending : List Char) : List Char → List Char
  | [] => pending.reverse
  | c :: r =>
    if isLineTermChar c then
      if c = '\r' then removeCrAux [] r
      else pending.reverse ++ c :: removeCrAux [] r
    else removeCrAux (c :: pending) r

def removeCrSegments (l : List Char) : List Char := removeCrAux [] l

/-! The replacement `replace(/^\s*[\[spinner-glyphs\]]/gm, '')`, line-start
mode: `^` can match at the start of `pending ++ rest` where `pending`
(reversed) is a run of whitespace already scanned.  A match is a run of
whitespace (`\s` also matches line terminators, so the run may span lines;
every line start inside the run sees the same first non-whitespace
character) followed by one spinner-class character; the class contains no
whitespace, so the greedy `\s*` cannot backtrack into a successful match
and a match exists exactly when the first non-whitespace character is in
the class.  After a match or a failed attempt, scanning resumes in
mid-line mode (`midLine`), which copies characters and returns to
line-start mode after each line terminator. -/
mutual
def spinnerLineStart (pending : List Char) : List Char → List Char
  | [] => pending.reverse
  | c :: r =>
    if isJsWs c then spinnerLineStart (c :: pending) r
    else if isSpinnerChar c then midLine r
    else pending.reverse ++ c :: midLine r

def midLine : List Char → List Char
  | [] => []
  | c :: r => if isLineTermChar c then c :: spinnerLineStart [] r else c :: midLine r
end

def removeSpinnerMarks (l : List Char) : List Char := spinnerLineStart [] l

/-! `spinnerFreeStart` decides whether the spinner regex has a match
anywhere: `Start` is the line-start scan over a whitespace run, `Mid` the
scan inside a line. -/
mutual
def spinnerFreeStart : List Char → Bool
  | [] => true
  | c :: r =>
    if isJsWs c then spinnerFreeStart r
    else if isSpinnerChar c then false
    else spinnerFreeMid r

def spinnerFreeMid : List Char → Bool
  | [] => true
  | c :: r => if isLineTermChar c then spinnerFreeStart r else spinnerFreeMid r
end

/-- `String.prototype.trim`: drop `\s` characters from both ends. -/
def jsTrimL (l : List Char) : List Char :=
  ((l.dropWhile isJsWs).reverse.dropWhile isJsWs).reverse

/-- The shared `cleanOutput` of both adapters, on character lists. -/
def cleanOutputL (l : List Char) : List Char :=
  jsTrimL (removeSpinnerMarks (removeCrSegments (stripAnsiL l)))

/-- `cleanOutput` (claude_code.ts lines 178-189, gemini_cli.ts lines
242-253). -/
def cleanOutput (s : String) : String := ⟨cleanOutputL s.data⟩

/-! ## Messages and JSON serialization of history -/

/-- The `Message` shape of the data model: `role` one of system / user /
assistant, `content` text. -/
inductive Role where
  | system
  | user
  | assistant
deriving DecidableEq, Repr

structure Message where
  role : Role
  content : String
deriving DecidableEq, Repr

def Role.toJsonString : Role → String
  | .system => "system"
  | .user => "user"
  | .assistant => "assistant"

/-- One hexadecimal digit, lowercase, as emitted by `JSON.stringify` in
`\u00XX` escapes. -/
def hexDigit (n : Nat) : Char :=
  if n < 10 then Char.ofNat ('0'.toNat + n) else Char.ofNat ('a'.toNat + (n - 10))

/-- The escaping `JSON.stringify` applies inside a quoted string. -/
def escapeJsonChar (c : Char) : List Char :=
  if c = '"' then ['\\', '"']
  else if c = '\\' then ['\\', '\\']
  else if c = '\x08' then ['\\', 'b']
  else if c = '\x0C' then ['\\', 'f']
  else if c = '\n' then ['\\', 'n']
  else if c = '\r' then ['\\', 'r']
  else if c = '\t' then ['\\', 't']
  else if c.toNat < 0x20 then
    ['\\', 'u', '0', '0', hexDigit (c.toNat / 16), hexDigit (c.toNat % 16)]
  else [c]

/-- A JSON string literal: quote, escape, quote. -/
def quoteJsonString (s : String) : String :=
  "\"" ++ ⟨(s.data.map escapeJsonChar).flatten⟩ ++ "\""

/-- One element of `JSON.stringify(history, null, 2)`: an object at
indentation level 1, fields in declaration order `role`, `content`. -/
def messageJsonPretty (m : Message) : String :=
  "  \x7b\n    \"role\": " ++ quoteJsonString m.role.toJsonString ++
  ",\n    \"content\": " ++ quoteJsonString m.content ++ "\n  \x7d"

/-- `JSON.stringify(history, null, 2)` for a list of messages. -/
def stringifyMessagesPretty (msgs : List Message) : String :=
  match msgs with
  | [] => "[]"
  | _ => "[\n" ++ String.intercalate ",\n" (msgs.map messageJsonPretty) ++ "\n]"

/-- One element of the compact `JSON.stringify(request.messages)` used by
the server for the token estimate. -/
def messageJsonCompact (m : Message) : String :=
  "\x7b\"role\":" ++ quoteJsonString m.role.toJsonString ++
  ",\"content\":" ++ quoteJsonString m.content ++ "\x7d"

/-- `JSON.stringify(request.messages)` (compact form). -/
def stringifyMessagesCompact (msgs : List Message) : String :=
  "[" ++ String.intercalate "," (msgs.map messageJsonCompact) ++ "]"

/-! ## Prompt builders

`ClaudeCodeAdapter.buildClaudeCodeCommand` (claude_code.ts lines 137-169)
and `GeminiCLIAdapter.buildGeminiPrompt` (gemini_cli.ts lines 155-184).
Each `def` below mirrors one `let`/`const` step of the source; the builder
functions compose them exactly as the source's string concatenations do.
-/

def CONVERSATION_SYSTEM_PROMPT_CLAUDE : String :=
  "You are participating in a conversation. When conversation history is provided in JSON format, use it to understand the context and respond appropriately to the current user message."

def CONVERSATION_SYSTEM_PROMPT_GEMINI : String :=
  "You are a generic, domain-agnostic AI assistant.\n\nIdentity and scope:\n- Do not identify as a specific product/tool or coding assistant.\n- Do not list capabilities or tools unless the user explicitly asks.\n- If a role label is required, use a minimal \"assistant\" identity only.\n\nEnvironment and tools:\n- Do not reference or infer local environment details (repos, files, editor, OS, terminal, processes, network).\n- Do not claim to run commands or open files. Offer steps as suggestions instead.\n- If the user shares environment details, do not extrapolate beyond what is provided.\n\nStyle and conduct:\n- Default to brief, direct, and helpful answers. Avoid long introductions.\n- For simple greetings (e.g., \"hi\"), reply with a short friendly greeting only.\n- Ask one concise clarification question when requirements are ambiguous.\n\nConversation handling:\n- When conversation history is provided in JSON, use it for context and respond to the latest user message.\n- Focus on the user's request and avoid unnecessary commentary."

/-- `messages.find((m) => m.role === 'system')`. -/
def findSystemMessage (messages : List Message) : Option Message :=
  messages.find? (fun m => m.role == Role.system)

/-- `const baseSystemPrompt = systemMsg?.content || '';` — the optional
chaining yields the empty string when there is no system message, and
`|| ''` maps an empty content to itself. -/
def baseSystemPrompt (messages : List Message) : String :=
  ((findSystemMessage messages).map Message.content).getD ""

/-- Claude: `baseSystemPrompt ? `${base}\n\n${CONST}` : CONST` —
JavaScript string truthiness is non-emptiness. -/
def claudeSystemPrompt (messages : List Message) : String :=
  if baseSystemPrompt messages = "" then CONVERSATION_SYSTEM_PROMPT_CLAUDE
  else baseSystemPrompt messages ++ "\n\n" ++ CONVERSATION_SYSTEM_PROMPT_CLAUDE

/-- Gemini: same composition with its own constant. -/
def geminiSystemPrompt (messages : List Message) : String :=
  if baseSystemPrompt messages = "" then CONVERSATION_SYSTEM_PROMPT_GEMINI
  else baseSystemPrompt messages ++ "\n\n" ++ CONVERSATION_SYSTEM_PROMPT_GEMINI

/-- `messages.filter((m) => m.role !== 'system')`. -/
def conversationMessages (messages : List Message) : List Message :=
  messages.filter (fun m => m.role != Role.system)

/-- The history block: present exactly when more than one conversation
message remains; `slice(0, -1)` is `dropLast`. -/
def historyBlock (messages : List Message) : String :=
  if 1 < (conversationMessages messages).length then
    "Conversation history:\n" ++
      stringifyMessagesPretty (conversationMessages messages).dropLast ++ "\n\n"
  else ""

/-- The current-message line:
`conversationMessages[conversationMessages.length - 1]` is `undefined` on
an empty list (`getLast?` = `none`), and the `if (latestMsg)` guard then
appends nothing. -/
def currentMessageLine (messages : List Message) : String :=
  match (conversationMessages messages).getLast? with
  | some latest => "Current user message: " ++ latest.content
  | none => ""

/-- The user payload accumulated by `+=` in both builders. -/
def userPayload (messages : List Message) : String :=
  historyBlock messages ++ currentMessageLine messages

/-- `buildClaudeCodeCommand` returns the pair (systemPrompt, userPrompt). -/
def buildClaudeCodeCommand (messages : List Message) : String × String :=
  (claudeSystemPrompt messages, userPayload messages)

/-- `buildGeminiPrompt` returns one combined prompt; the source
accumulates `"System instructions:\n" + systemPrompt + "\n\n"`, then the
history block, then the current-message line. -/
def buildGeminiPrompt (messages : List Message) : String :=
  "System instructions:\n" ++ geminiSystemPrompt messages ++ "\n\n" ++
    userPayload messages

/-! ## Subprocess failure classification (execute, claude_code.ts lines
114-125 and gemini_cli.ts lines 132-143)

`execFile` either resolves with stdout or rejects with an error object
carrying `killed`, `signal`, `message`, captured `stderr` and any partial
stdout produced before the failure.  The catch block converts
`error.killed && error.signal === 'SIGTERM'` into a tool-specific
`TimeoutError` and rethrows every other error unmodified. -/

structure SpawnError where
  killed : Bool
  signal : Option String
  message : String
  stderr : String
  partialStdout : String
deriving DecidableEq, Repr

/-- The errors that can escape an adapter's `execute`.  The two adapter
files each declare their own `class TimeoutError extends Error`; these are
distinct classes, which the embedding keeps as distinct constructors. -/
inductive AdapterError where
  | claudeTimeout (message : String)
  | geminiTimeout (message : String)
  | execErr (e : SpawnError)
deriving DecidableEq, Repr

/-- The message carried by an escaped error (`error.message`). -/
def AdapterError.message : AdapterError → String
  | .claudeTimeout m => m
  | .geminiTimeout m => m
  | .execErr e => e.message

/-- The catch block of `ClaudeCodeAdapter.execute`. -/
def classifyClaudeError (error : SpawnError) : AdapterError :=
  if error.killed && error.signal == some "SIGTERM" then
    .claudeTimeout "Claude Code execution timed out"
  else .execErr error

/-- The catch block of `GeminiCLIAdapter.execute`. -/
def classifyGeminiError (error : SpawnError) : AdapterError :=
  if error.killed && error.signal == some "SIGTERM" then
    .geminiTimeout "Gemini CLI execution timed out"
  else .execErr error

/-- `ClaudeCodeAdapter.execute` as a function of the spawn outcome. -/
def executeClaude (spawn : Except SpawnError String) : Except AdapterError String :=
  match spawn with
  | .ok stdout => .ok (cleanOutput stdout)
  | .error e => .error (classifyClaudeError e)

/-! ## JSON values

`GeminiCLIAdapter.extractResponse` (gemini_cli.ts lines 193-233) runs
`JSON.parse` on the ANSI-stripped, trimmed stdout and dispatches on the
shape of the result.  The embedding models JSON values as `Json`, with
JavaScript property access, truthiness, `JSON.parse` and `JSON.stringify`
made explicit.  Numbers are carried as their literal text; JavaScript
re-serialization of numbers (e.g. `1.0` to `"1"`) is modelled as identity,
and no claim exercises numeric re-serialization. -/

inductive Json where
  | null
  | bool (b : Bool)
  | num (raw : String)
  | str (s : String)
  | arr (elems : List Json)
  | obj (fields : List (String × Json))
deriving Repr

/-- JavaScript truthiness of a JSON value: `null`, `false`, `0` and `""`
are falsy; every array and object is truthy.  A JSON number literal is
zero exactly when its mantissa (the part before any exponent) has no
nonzero digit. -/
def Json.truthy : Json → Bool
  | .null => false
  | .bool b => b
  | .num raw =>
    (raw.data.takeWhile (fun c => c != 'e' && c != 'E')).any
      (fun c => c.isDigit && c != '0')
  | .str s => !s.isEmpty
  | .arr _ => true
  | .obj _ => true

/-- Property access `j[key]`: `none` models `undefined`.  Objects produced
by the parser have no duplicate keys, so first match suffices. -/
def jGet (j : Json) (key : String) : Option Json :=
  match j with
  | .obj fields => (fields.find? (fun kv => kv.1 == key)).map (fun kv => kv.2)
  | _ => none

mutual
/-- Compact `JSON.stringify` of a value (no indentation). -/
def Json.stringifyCompact : Json → String
  | .null => "null"
  | .bool true => "true"
  | .bool false => "false"
  | .num raw => raw
  | .str s => quoteJsonString s
  | .arr es => "[" ++ stringifyArrCompact es ++ "]"
  | .obj fs => "\x7b" ++ stringifyObjCompact fs ++ "\x7d"

def stringifyArrCompact : List Json → String
  | [] => ""
  | [e] => Json.stringifyCompact e
  | e :: rest => Json.stringifyCompact e ++ "," ++ stringifyArrCompact rest

def stringifyObjCompact : List (String × Json) → String
  | [] => ""
  | [(k, v)] => quoteJsonString k ++ ":" ++ Json.stringifyCompact v
  | (k, v) :: rest =>
    quoteJsonString k ++ ":" ++ Json.stringifyCompact v ++ "," ++
      stringifyObjCompact rest
end

mutual
/-- JavaScript `String(v)` coercion as used by `Array.prototype.join`:
booleans and null print their keywords, strings pass through, arrays join
their elements with commas (null elements become empty), plain objects
print "[object Object]". -/
def jsToStringCoerce : Json → String
  | .null => "null"
  | .bool true => "true"
  | .bool false => "false"
  | .num raw => raw
  | .str s => s
  | .arr es => joinCoerce es
  | .obj _ => "[object Object]"
  termination_by j => (sizeOf j, 0)

def joinCoerce : List Json → String
  | [] => ""
  | [e] => elemCoerce e
  | e :: rest => elemCoerce e ++ "," ++ joinCoerce rest
  termination_by l => (sizeOf l, 2)

def elemCoerce : Json → String
  | .null => ""
  | j => jsToStringCoerce j
  termination_by j => (sizeOf j, 1)
end

/-! ### JSON.parse -/

/-- The whitespace `JSON.parse` skips between tokens. -/
def jsonWsChar (c : Char) : Bool := c == ' ' || c == '\t' || c == '\n' || c == '\r'

def lbrace : Char := Char.ofNat 123

def rbrace : Char := Char.ofNat 125

def hexVal (c : Char) : Option Nat :=
  if '0' ≤ c ∧ c ≤ '9' then some (c.toNat - '0'.toNat)
  else if 'a' ≤ c ∧ c ≤ 'f' then some (c.toNat - 'a'.toNat + 10)
  else if 'A' ≤ c ∧ c ≤ 'F' then some (c.toNat - 'A'.toNat + 10)
  else none

def hex4 (a b c d : Char) : Option Nat := do
  let x ← hexVal a
  let y ← hexVal b
  let z ← hexVal c
  let w ← hexVal d
  pure (((x * 16 + y) * 16 + z) * 16 + w)

/-- Pair a high surrogate escape with a following low surrogate escape if
present; otherwise decode to U+FFFD consuming nothing further. -/
def surrogateDecode (n : Nat) (r2 : List Char) : Char × List Char :=
  match r2 with
  | '\\' :: 'u' :: a2 :: b2 :: c2 :: d2 :: r3 =>
    match hex4 a2 b2 c2 d2 with
    | some m2 =>
      if 0xDC00 ≤ m2 ∧ m2 ≤ 0xDFFF then
        (Char.ofNat (0x10000 + (n - 0xD800) * 0x400 + (m2 - 0xDC00)), r3)
      else ('�', r2)
    | none => ('�', r2)
  | _ => ('�', r2)

theorem surrogateDecode_length (n : Nat) (r2 : List Char) :
    (surrogateDecode n r2).2.length ≤ r2.length := by
  unfold surrogateDecode
  split
  · split
    · split
      · simp only [List.length_cons]; omega
      · simp
    · simp
  · simp

/-- The body of a JSON string literal after the opening quote: returns the
decoded characters and the suffix after the closing quote.  Escaped
surrogate pairs combine into one code point; JavaScript tolerates lone
surrogates, which Lean strings cannot carry, so they decode to U+FFFD
(no claim exercises lone surrogates). -/
def parseStringBody : List Char → Option (List Char × List Char)
  | [] => none
  | '"' :: r => some ([], r)
  | '\\' :: r =>
    match r with
    | '"' :: r2 => (parseStringBody r2).map (fun p => ('"' :: p.1, p.2))
    | '\\' :: r2 => (parseStringBody r2).map (fun p => ('\\' :: p.1, p.2))
    | '/' :: r2 => (parseStringBody r2).map (fun p => ('/' :: p.1, p.2))
    | 'b' :: r2 => (parseStringBody r2).map (fun p => ('\x08' :: p.1, p.2))
    | 'f' :: r2 => (parseStringBody r2).map (fun p => ('\x0C' :: p.1, p.2))
    | 'n' :: r2 => (parseStringBody r2).map (fun p => ('\n' :: p.1, p.2))
    | 'r' :: r2 => (parseStringBody r2).map (fun p => ('\r' :: p.1, p.2))
    | 't' :: r2 => (parseStringBody r2).map (fun p => ('\t' :: p.1, p.2))
    | 'u' :: a :: b :: c :: d :: r2 =>
      match hex4 a b c d with
      | none => none
      | some n =>
        if 0xD800 ≤ n ∧ n ≤ 0xDBFF then
          (parseStringBody (surrogateDecode n r2).2).map (fun p =>
            ((surrogateDecode n r2).1 :: p.1, p.2))
        else if 0xDC00 ≤ n ∧ n ≤ 0xDFFF then
          (parseStringBody r2).map (fun p => ('�' :: p.1, p.2))
        else (parseStringBody r2).map (fun p => (Char.ofNat n :: p.1, p.2))
    | _ => none
  | c :: r =>
    if c.toNat < 0x20 then none
    else (parseStringBody r).map (fun p => (c :: p.1, p.2))
termination_by l => l.length
decreasing_by all_goals first
  | (simp only [List.length_cons]; omega)
  | (have hs := surrogateDecode_length n r2; simp only [List.length_cons]; omega)

/-- Split a maximal digit run. -/
def digitSpan (l : List Char) : List Char × List Char :=
  (l.takeWhile Char.isDigit, l.dropWhile Char.isDigit)

/-- The integer part of a JSON number: `0` or a nonzero digit followed by
digits (no leading zeros). -/
def parseIntPart : List Char → Option (List Char × List Char)
  | '0' :: r => some (['0'], r)
  | c :: r =>
    if c.isDigit then
      let p := digitSpan r
      some (c :: p.1, p.2)
    else none
  | [] => none

/-- The optional fractional part `.digits`. -/
def parseFracPart : List Char → Option (List Char × List Char)
  | '.' :: r =>
    let p := digitSpan r
    if p.1.isEmpty then none else some ('.' :: p.1, p.2)
  | l => some ([], l)

/-- The optional exponent part `e|E [+|-] digits`. -/
def parseExpPart : List Char → Option (List Char × List Char)
  | c :: r =>
    if c = 'e' || c = 'E' then
      let sp : List Char × List Char :=
        match r with
        | '+' :: r2 => (['+'], r2)
        | '-' :: r2 => (['-'], r2)
        | _ => ([], r)
      let p := digitSpan sp.2
      if p.1.isEmpty then none else some (c :: (sp.1 ++ p.1), p.2)
    else some ([], c :: r)
  | [] => some ([], [])

/-- A JSON number literal, kept as its text. -/
def parseNumber (l : List Char) : Option (Json × List Char) :=
  let sp : List Char × List Char :=
    match l with
    | '-' :: r => (['-'], r)
    | _ => ([], l)
  match parseIntPart sp.2 with
  | none => none
  | some (ip, l2) =>
    match parseFracPart l2 with
    | none => none
    | some (fp, l3) =>
      match parseExpPart l3 with
      | none => none
      | some (ep, l4) => some (.num ⟨sp.1 ++ ip ++ fp ++ ep⟩, l4)

/-- Replace-or-append one object member; `JSON.parse` keeps the first
position and the last value of a duplicated key. -/
def objInsert : List (String × Json) → String → Json → List (String × Json)
  | [], k, v => [(k, v)]
  | (k2, v2) :: rest, k, v =>
    if k2 = k then (k2, v) :: rest else (k2, v2) :: objInsert rest k v

def collapseDups (fields : List (String × Json)) : List (String × Json) :=
  fields.foldl (fun acc kv => objInsert acc kv.1 kv.2) []

mutual
/-- Parse one JSON value at the head of `l` (leading whitespace already
skipped).  `fuel` only bounds recursion depth; `parseJson` supplies more
fuel than any input can consume. -/
def parseValue : Nat → List Char → Option (Json × List Char)
  | 0, _ => none
  | fuel + 1, l =>
    match l with
    | 'n' :: 'u' :: 'l' :: 'l' :: r => some (.null, r)
    | 't' :: 'r' :: 'u' :: 'e' :: r => some (.bool true, r)
    | 'f' :: 'a' :: 'l' :: 's' :: 'e' :: r => some (.bool false, r)
    | '"' :: r => (parseStringBody r).map (fun p => (.str ⟨p.1⟩, p.2))
    | '[' :: r =>
      let r1 := r.dropWhile jsonWsChar
      match r1 with
      | ']' :: r2 => some (.arr [], r2)
      | _ => (parseElems fuel r1).map (fun p => (.arr p.1, p.2))
    | c :: r =>
      if c = lbrace then
        let r1 := r.dropWhile jsonWsChar
        match r1 with
        | d :: r2 =>
          if d = rbrace then some (.obj [], r2)
          else (parseMembers fuel r1).map (fun p => (.obj (collapseDups p.1), p.2))
        | [] => none
      else if c = '-' || c.isDigit then parseNumber (c :: r)
      else none
    | [] => none
  termination_by fuel _ => fuel

/-- Parse `value (ws ',' ws value)* ws ']'`. -/
def parseElems : Nat → List Char → Option (List Json × List Char)
  | 0, _ => none
  | fuel + 1, l =>
    match parseValue fuel l with
    | none => none
    | some (v, r) =>
      match r.dropWhile jsonWsChar with
      | ',' :: r2 =>
        (parseElems fuel (r2.dropWhile jsonWsChar)).map (fun p => (v :: p.1, p.2))
      | ']' :: r2 => some ([v], r2)
      | _ => none
  termination_by fuel _ => fuel

/-- Parse `"key" ws ':' ws value (ws ',' ws ...)* ws` up to the closing
brace. -/
def parseMembers : Nat → List Char → Option (List (String × Json) × List Char)
  | 0, _ => none
  | fuel + 1, l =>
    match l with
    | '"' :: r =>
      match parseStringBody r with
      | none => none
      | some (k, r1) =>
        match r1.dropWhile jsonWsChar with
        | ':' :: r3 =>
          match parseValue fuel (r3.dropWhile jsonWsChar) with
          | none => none
          | some (v, r4) =>
            match r4.dropWhile jsonWsChar with
            | ',' :: r6 =>
              (parseMembers fuel (r6.dropWhile jsonWsChar)).map
                (fun p => ((⟨k⟩, v) :: p.1, p.2))
            | d :: r7 =>
              if d = rbrace then some ([(⟨k⟩, v)], r7) else none
            | [] => none
        | _ => none
    | _ => none
  termination_by fuel _ => fuel
end

/-- `JSON.parse`: skip leading whitespace, parse one value, require only
whitespace after it.  `none` models a thrown SyntaxError. -/
def parseJson (s : String) : Option Json :=
  let l := s.data.dropWhile jsonWsChar
  match parseValue (2 * l.length + 8) l with
  | some (j, rest) => if (rest.dropWhile jsonWsChar).isEmpty then some j else none
  | none => none

/-! ### extractResponse -/

/-- `part.text || ''` followed by the `String()` coercion of
`Array.prototype.join`; `none` models the TypeError thrown by accessing
`.text` on a null array entry. -/
def partTextPiece (p : Json) : Option String :=
  match p with
  | .null => none
  | _ =>
    match jGet p "text" with
    | some v => if v.truthy then some (jsToStringCoerce v) else some ""
    | none => some ""

/-- The guarded candidates branch:

    if (parsed.candidates && Array.isArray(parsed.candidates) && parsed.candidates[0]) {
      const candidate = parsed.candidates[0];
      if (candidate.content && candidate.content.parts && Array.isArray(candidate.content.parts)) {
        return candidate.content.parts.map((part) => part.text || '').join('');
      }
    }

`some (some r)` means the branch returned `r`; `some none` means it threw
(a null entry in `parts`); `none` means control fell through to the
`text` / `response` checks. -/
def candidatesResult (parsed : Json) : Option (Option Json) :=
  match jGet parsed "candidates" with
  | some cand =>
    if cand.truthy then
      match cand with
      | .arr cs =>
        match cs.head? with
        | some c0 =>
          if c0.truthy then
            match jGet c0 "content" with
            | some content =>
              if content.truthy then
                match jGet content "parts" with
                | some (.arr ps) =>
                  match ps.mapM partTextPiece with
                  | some pieces => some (some (.str (String.join pieces)))
                  | none => some none
                | _ => none
              else none
            | none => none
          else none
        | none => none
      | _ => none
    else none
  | none => none

/-- `if (parsed.response) return parsed.response;` else the final
stringify fallback. -/
def responseOrStringify (j : Json) : Json :=
  match jGet j "response" with
  | some v => if v.truthy then v else .str j.stringifyCompact
  | none => .str j.stringifyCompact

/-- `if (parsed.text) return parsed.text;` else the response check. -/
def textResponseOrStringify (j : Json) : Json :=
  match jGet j "text" with
  | some v => if v.truthy then v else responseOrStringify j
  | none => responseOrStringify j

/-- The body of the `try` after `JSON.parse` succeeded: a string result is
returned directly; property access on `null` throws (`none`); otherwise
the candidates branch, then the `text`/`response`/stringify chain. -/
def extractFromParsed (parsed : Json) : Option Json :=
  match parsed with
  | .str s => some (.str s)
  | .null => none
  | j =>
    match candidatesResult j with
    | some r => r
    | none => some (textResponseOrStringify j)

/-- `GeminiCLIAdapter.extractResponse` (gemini_cli.ts lines 193-233).
The result is a `Json` value because the JavaScript function can return
the raw `parsed.text` / `parsed.response` of any type; on every string
path it is a `.str`.  A thrown TypeError inside the `try` falls to the
`catch`, which runs `cleanOutput` on the stripped and trimmed text. -/
def extractResponse (stdout : String) : Json :=
  if stdout.isEmpty then .str ""
  else
    let cleaned : String := ⟨jsTrimL (stripAnsiL stdout.data)⟩
    match parseJson cleaned with
    | some parsed =>
      match extractFromParsed parsed with
      | some r => r
      | none => .str (cleanOutput cleaned)
    | none => .str (cleanOutput cleaned)

/-- `GeminiCLIAdapter.execute` as a function of the spawn outcome. -/
def executeGemini (spawn : Except SpawnError String) : Except AdapterError Json :=
  match spawn with
  | .ok stdout => .ok (extractResponse stdout)
  | .error e => .error (classifyGeminiError e)

/-! ## HTTP error mapping (server.ts lines 80-104)

`server.ts` imports `TimeoutError` from `./adapters/claude_code` only, and
tests the caught error with `error instanceof TimeoutError`.  The
`TimeoutError` declared in `gemini_cli.ts` is a different class, so a
Gemini timeout does not satisfy this `instanceof` test. -/

/-- `error instanceof TimeoutError` with the class imported from
claude_code.ts. -/
def isClaudeTimeoutInstance : AdapterError → Bool
  | .claudeTimeout _ => true
  | _ => false

/-- The status code chosen by the catch block of the chat-completions
route: 504 for the recognized TimeoutError, 500 otherwise. -/
def httpStatusFor (e : AdapterError) : Nat :=
  if isClaudeTimeoutInstance e then 504 else 500

/-- The `type` field of the error envelope. -/
def errorTypeFor (e : AdapterError) : String :=
  if isClaudeTimeoutInstance e then "timeout_error" else "internal_error"

/-! ## Token-estimate usage block (server.ts lines 72-76 and 136-139) -/

/-- JavaScript `String.prototype.length`: UTF-16 code units. -/
def utf16Length (s : String) : Nat :=
  (s.data.map (fun c => if c.toNat ≥ 0x10000 then 2 else 1)).sum

/-- `estimateTokens`: `Math.ceil(text.length / 4)`. -/
def estimateTokens (text : String) : Nat := (utf16Length text + 3) / 4

structure Usage where
  prompt_tokens : Nat
  completion_tokens : Nat
  total_tokens : Nat
deriving DecidableEq, Repr

/-- The usage block of a successful chat completion:

    prompt_tokens: estimateTokens(JSON.stringify(request.messages)),
    completion_tokens: estimateTokens(content),
    total_tokens: estimateTokens(JSON.stringify(request.messages) + content)
-/
def usageFor (messages : List Message) (content : String) : Usage :=
  { prompt_tokens := estimateTokens (stringifyMessagesCompact messages),
    completion_tokens := estimateTokens content,
    total_tokens := estimateTokens (stringifyMessagesCompact messages ++ content) }

/-! ## Adapter factory (factory.ts / part_005 lines 213-226) -/

structure AdapterConfig where
  type : String
  runtimeDir : String
  timeout : Nat
  debug : Bool
  model : Option String
deriving DecidableEq, Repr

/-- The adapter instances the factory can build.  The source passes
`config.model` as a fourth argument to the `ClaudeCodeAdapter`
constructor, whose parameter list has only three entries; the extra
argument is ignored. -/
inductive Adapter where
  | claudeCode (runtimeDir : String) (timeout : Nat) (debug : Bool)
deriving DecidableEq, Repr

/-- `AdapterFactory.create`: the `switch (config.type)`.  A thrown
construction-time error is modelled as `Except.error` carrying the
error's message. -/
def AdapterFactory.create (config : AdapterConfig) : Except String Adapter :=
  if config.type = "claude-code" then
    .ok (.claudeCode config.runtimeDir config.timeout config.debug)
  else if config.type = "codex" then
    .error "Codex adapter not yet implemented"
  else if config.type = "gemini-cli" then
    .error "Gemini CLI adapter not yet implemented"
  else
    .error ("Unknown adapter type: " ++ config.type)

/-- `needle` matches `hay` position by position from the head. -/
def matchesAt : List Char → List Char → Bool
  | [], _ => true
  | _ :: _, [] => false
  | a :: as2, b :: bs => a == b && matchesAt as2 bs

/-- `needle` occurs as a contiguous substring of `hay`. -/
def occursIn (needle hay : List Char) : Bool :=
  match hay with
  | [] => matchesAt needle []
  | _ :: t => matchesAt needle hay || occursIn needle t

/-! ## Theorems settling the claims -/

/-! ## Claims about the prompt builders -/

/-- C1: for every message list whose non-system sub-list has N > 1
elements, the user payload built by `buildClaudeCodeCommand` /
`buildGeminiPrompt` is the history label `"Conversation history:"`
followed by exactly the first N-1 non-system messages serialized in
original order (field order role, content), a blank-line separator, and
the line `"Current user message: "` followed by the content of the N-th
non-system message byte-for-byte, with no escaping or truncation. -/
theorem claim_C1_history_block_and_current_line
    (messages : List Message) (last : Message)
    (hn : 1 < (conversationMessages messages).length)
    (hl : (conversationMessages messages).getLast? = some last) :
    (buildClaudeCodeCommand messages).2 =
      "Conversation history:\n" ++
        stringifyMessagesPretty
          ((conversationMessages messages).take
            ((conversationMessages messages).length - 1)) ++
        "\n\n" ++ ("Current user message: " ++ last.content) ∧
    buildGeminiPrompt messages =
      "System instructions:\n" ++ geminiSystemPrompt messages ++ "\n\n" ++
        ("Conversation history:\n" ++
          stringifyMessagesPretty
            ((conversationMessages messages).take
              ((conversationMessages messages).length - 1)) ++
          "\n\n" ++ ("Current user message: " ++ last.content)) := by
  have hpayload : userPayload messages =
      "Conversation history:\n" ++
        stringifyMessagesPretty
          ((conversationMessages messages).take
            ((conversationMessages messages).length - 1)) ++
        "\n\n" ++ ("Current user message: " ++ last.content) := by
    rw [userPayload, historyBlock, if_pos hn, currentMessageLine, hl,
      ← List.dropLast_eq_take]
  exact ⟨hpayload, by rw [buildGeminiPrompt, hpayload]⟩

theorem claim_C1_witness :
    (buildClaudeCodeCommand
        [⟨Role.user, "My favorite color is blue"⟩,
         ⟨Role.assistant, "That is nice!"⟩,
         ⟨Role.user, "What is my favorite color?"⟩]).2 =
      "Conversation history:\n" ++
        stringifyMessagesPretty
          ((conversationMessages
              [⟨Role.user, "My favorite color is blue"⟩,
               ⟨Role.assistant, "That is nice!"⟩,
               ⟨Role.user, "What is my favorite color?"⟩]).take
            ((conversationMessages
              [⟨Role.user, "My favorite color is blue"⟩,
               ⟨Role.assistant, "That is nice!"⟩,
               ⟨Role.user, "What is my favorite color?"⟩]).length - 1)) ++
        "\n\n" ++
        ("Current user message: " ++
          (Message.mk Role.user "What is my favorite color?").content) ∧
    buildGeminiPrompt
        [⟨Role.user, "My favorite color is blue"⟩,
         ⟨Role.assistant, "That is nice!"⟩,
         ⟨Role.user, "What is my favorite color?"⟩] =
      "System instructions:\n" ++
        geminiSystemPrompt
          [⟨Role.user, "My favorite color is blue"⟩,
           ⟨Role.assistant, "That is nice!"⟩,
           ⟨Role.user, "What is my favorite color?"⟩] ++ "\n\n" ++
        ("Conversation history:\n" ++
          stringifyMessagesPretty
            ((conversationMessages
                [⟨Role.user, "My favorite color is blue"⟩,
                 ⟨Role.assistant, "That is nice!"⟩,
                 ⟨Role.user, "What is my favorite color?"⟩]).take
              ((conversationMessages
                [⟨Role.user, "My favorite color is blue"⟩,
                 ⟨Role.assistant, "That is nice!"⟩,
                 ⟨Role.user, "What is my favorite color?"⟩]).length - 1)) ++
          "\n\n" ++
          ("Current user message: " ++
            (Message.mk Role.user "What is my favorite color?").content)) :=
  claim_C1_history_block_and_current_line _ _ (by decide) (by decide)

/-- C6: the effective system prompt equals the first system message's
content, a blank line and the fixed conversation-context instruction when
that content is non-empty, and exactly the fixed instruction alone when
there is no system message or its content is empty. -/
theorem claim_C6_effective_system_prompt (messages : List Message) :
    (∀ m, findSystemMessage messages = some m → m.content ≠ "" →
      (buildClaudeCodeCommand messages).1 =
        m.content ++ "\n\n" ++ CONVERSATION_SYSTEM_PROMPT_CLAUDE ∧
      buildGeminiPrompt messages =
        "System instructions:\n" ++
          (m.content ++ "\n\n" ++ CONVERSATION_SYSTEM_PROMPT_GEMINI) ++ "\n\n" ++
          userPayload messages) ∧
    ((findSystemMessage messages = none ∨
        ∃ m, findSystemMessage messages = some m ∧ m.content = "") →
      (buildClaudeCodeCommand messages).1 = CONVERSATION_SYSTEM_PROMPT_CLAUDE ∧
      buildGeminiPrompt messages =
        "System instructions:\n" ++ CONVERSATION_SYSTEM_PROMPT_GEMINI ++ "\n\n" ++
          userPayload messages) := by
  constructor
  · intro m hm hne
    have hbase : baseSystemPrompt messages = m.content := by
      rw [baseSystemPrompt, hm]; rfl
    constructor
    · rw [buildClaudeCodeCommand]
      simp only [claudeSystemPrompt, hbase, if_neg hne]
    · rw [buildGeminiPrompt]
      simp only [geminiSystemPrompt, hbase, if_neg hne]
  · intro hcase
    have hbase : baseSystemPrompt messages = "" := by
      rcases hcase with hnone | ⟨m, hm, hc⟩
      · rw [baseSystemPrompt, hnone]; rfl
      · rw [baseSystemPrompt, hm]
        simp [hc]
    constructor
    · simp [buildClaudeCodeCommand, claudeSystemPrompt, hbase]
    · simp [buildGeminiPrompt, geminiSystemPrompt, hbase]

theorem claim_C6_witness :
    ((buildClaudeCodeCommand [⟨Role.system, "Hi"⟩, ⟨Role.user, "q"⟩]).1 =
        "Hi" ++ "\n\n" ++ CONVERSATION_SYSTEM_PROMPT_CLAUDE ∧
      buildGeminiPrompt [⟨Role.system, "Hi"⟩, ⟨Role.user, "q"⟩] =
        "System instructions:\n" ++
          ("Hi" ++ "\n\n" ++ CONVERSATION_SYSTEM_PROMPT_GEMINI) ++ "\n\n" ++
          userPayload [⟨Role.system, "Hi"⟩, ⟨Role.user, "q"⟩]) ∧
    ((buildClaudeCodeCommand [⟨Role.user, "q"⟩]).1 =
        CONVERSATION_SYSTEM_PROMPT_CLAUDE ∧
      buildGeminiPrompt [⟨Role.user, "q"⟩] =
        "System instructions:\n" ++ CONVERSATION_SYSTEM_PROMPT_GEMINI ++ "\n\n" ++
          userPayload [⟨Role.user, "q"⟩]) :=
  ⟨(claim_C6_effective_system_prompt _).1 ⟨Role.system, "Hi"⟩ (by decide)
      (by decide),
    (claim_C6_effective_system_prompt _).2 (Or.inl (by decide))⟩

/-- C7: with exactly one non-system message, the built user payload is
only the current-message line (no "Conversation history:" label). -/
theorem claim_C7_no_history_for_single_message
    (messages : List Message) (m : Message)
    (h : conversationMessages messages = [m]) :
    (buildClaudeCodeCommand messages).2 = "Current user message: " ++ m.content ∧
    buildGeminiPrompt messages =
      "System instructions:\n" ++ geminiSystemPrompt messages ++ "\n\n" ++
        ("Current user message: " ++ m.content) := by
  have hpayload : userPayload messages = "Current user message: " ++ m.content := by
    rw [userPayload, historyBlock, currentMessageLine, h]
    norm_num
  exact ⟨hpayload, by rw [buildGeminiPrompt, hpayload]⟩

theorem claim_C7_witness :
    (buildClaudeCodeCommand [⟨Role.system, "s"⟩, ⟨Role.user, "hello"⟩]).2 =
      "Current user message: " ++ (Message.mk Role.user "hello").content ∧
    buildGeminiPrompt [⟨Role.system, "s"⟩, ⟨Role.user, "hello"⟩] =
      "System instructions:\n" ++
        geminiSystemPrompt [⟨Role.system, "s"⟩, ⟨Role.user, "hello"⟩] ++ "\n\n" ++
        ("Current user message: " ++ (Message.mk Role.user "hello").content) :=
  claim_C7_no_history_for_single_message _ _ (by decide)

/-- C10: when every message has role system (empty turn sequence), the
builders return without raising (they are total functions here) and omit
the current-message line: the Claude user payload is the empty string and
the Gemini prompt is exactly the "System instructions:" section. -/
theorem claim_C10_all_system_messages (messages : List Message)
    (h : ∀ m ∈ messages, m.role = Role.system) :
    (buildClaudeCodeCommand messages).2 = "" ∧
    buildGeminiPrompt messages =
      "System instructions:\n" ++ geminiSystemPrompt messages ++ "\n\n" := by
  have hconv : conversationMessages messages = [] := by
    rw [conversationMessages, List.filter_eq_nil_iff]
    intro m hm
    simp [h m hm]
  have hpayload : userPayload messages = "" := by
    rw [userPayload, historyBlock, currentMessageLine, hconv]
    norm_num
  refine ⟨hpayload, ?_⟩
  rw [buildGeminiPrompt, hpayload]
  simp

theorem claim_C10_witness :
    (buildClaudeCodeCommand [⟨Role.system, "a"⟩, ⟨Role.system, "b"⟩]).2 = "" ∧
    buildGeminiPrompt [⟨Role.system, "a"⟩, ⟨Role.system, "b"⟩] =
      "System instructions:\n" ++
        geminiSystemPrompt [⟨Role.system, "a"⟩, ⟨Role.system, "b"⟩] ++ "\n\n" :=
  claim_C10_all_system_messages _ (by decide)

/-- C2: a spawn failure with `killed` and signal SIGTERM surfaces as the
tool-specific TimeoutError (never the generic rethrow), regardless of the
partial stdout and stderr captured; every other failure is rethrown as the
underlying error with its message unmodified. -/
theorem claim_C2_timeout_classification (e : SpawnError) :
    ((e.killed = true ∧ e.signal = some "SIGTERM") →
      executeClaude (.error e) =
        .error (.claudeTimeout "Claude Code execution timed out") ∧
      (executeGemini (.error e) : Except AdapterError Json) =
        .error (.geminiTimeout "Gemini CLI execution timed out") ∧
      (∀ e2, classifyClaudeError e ≠ .execErr e2) ∧
      (∀ e2, classifyGeminiError e ≠ .execErr e2)) ∧
    (¬(e.killed = true ∧ e.signal = some "SIGTERM") →
      executeClaude (.error e) = .error (.execErr e) ∧
      (executeGemini (.error e) : Except AdapterError Json) =
        .error (.execErr e) ∧
      (AdapterError.execErr e).message = e.message) := by
  constructor
  · rintro ⟨hk, hs⟩
    have hcond : (e.killed && e.signal == some "SIGTERM") = true := by
      rw [hk, hs]; rfl
    refine ⟨?_, ?_, ?_, ?_⟩
    · simp [executeClaude, classifyClaudeError, hcond]
    · simp [executeGemini, classifyGeminiError, hcond]
    · intro e2; simp [classifyClaudeError, hcond]
    · intro e2; simp [classifyGeminiError, hcond]
  · intro hno
    have hcond : (e.killed && e.signal == some "SIGTERM") = false := by
      cases hk : e.killed with
      | false => rfl
      | true =>
        cases hs : e.signal == some "SIGTERM" with
        | false => simp [hs]
        | true => exact absurd ⟨hk, by simpa using hs⟩ hno
    refine ⟨?_, ?_, rfl⟩
    · simp [executeClaude, classifyClaudeError, hcond]
    · simp [executeGemini, classifyGeminiError, hcond]

theorem claim_C2_witness :
    (executeClaude (.error ⟨true, some "SIGTERM", "Command timed out", "", "partial out"⟩) =
        .error (.claudeTimeout "Claude Code execution timed out") ∧
      (executeGemini (.error ⟨true, some "SIGTERM", "Command timed out", "", "partial out"⟩) :
          Except AdapterError Json) =
        .error (.geminiTimeout "Gemini CLI execution timed out") ∧
      (∀ e2, classifyClaudeError ⟨true, some "SIGTERM", "Command timed out", "", "partial out"⟩ ≠
          .execErr e2) ∧
      (∀ e2, classifyGeminiError ⟨true, some "SIGTERM", "Command timed out", "", "partial out"⟩ ≠
          .execErr e2)) ∧
    (executeClaude (.error ⟨false, none, "spawn ENOENT", "", ""⟩) =
        .error (.execErr ⟨false, none, "spawn ENOENT", "", ""⟩) ∧
      (executeGemini (.error ⟨false, none, "spawn ENOENT", "", ""⟩) :
          Except AdapterError Json) =
        .error (.execErr ⟨false, none, "spawn ENOENT", "", ""⟩) ∧
      (AdapterError.execErr ⟨false, none, "spawn ENOENT", "", ""⟩).message =
        "spawn ENOENT") :=
  ⟨(claim_C2_timeout_classification _).1 ⟨rfl, rfl⟩,
    (claim_C2_timeout_classification _).2 (by simp)⟩

/-- C3 (code bug): a timeout raised by the Claude adapter maps to 504, but
a timeout raised by the Gemini adapter — the `TimeoutError` class declared
in gemini_cli.ts, which is not the class `server.ts` imports — falls into
the generic branch and maps to 500 with type "internal_error", where the
claim (and the spec's error taxonomy) require 504. -/
theorem claim_C3_gemini_timeout_maps_to_500 :
    httpStatusFor (classifyClaudeError ⟨true, some "SIGTERM", "t", "", ""⟩) = 504 ∧
    errorTypeFor (classifyClaudeError ⟨true, some "SIGTERM", "t", "", ""⟩) =
      "timeout_error" ∧
    httpStatusFor (classifyGeminiError ⟨true, some "SIGTERM", "t", "", ""⟩) = 500 ∧
    errorTypeFor (classifyGeminiError ⟨true, some "SIGTERM", "t", "", ""⟩) =
      "internal_error" := by
  refine ⟨rfl, rfl, rfl, rfl⟩

theorem utf16Length_append (a b : String) :
    utf16Length (a ++ b) = utf16Length a + utf16Length b := by
  simp [utf16Length, String.data_append]

/-- C9 counterexample: for the request `[{role:"user",content:""}]` (whose
serialization has 30 code units) and response `"a"`, the code sets
`total_tokens = ceil(31/4) = 8` while `prompt_tokens + completion_tokens
= 8 + 1 = 9`. -/
theorem claim_C9_counterexample :
    (usageFor [⟨Role.user, ""⟩] "a").total_tokens = 8 ∧
    (usageFor [⟨Role.user, ""⟩] "a").prompt_tokens +
      (usageFor [⟨Role.user, ""⟩] "a").completion_tokens = 9 ∧
    (usageFor [⟨Role.user, ""⟩] "a").total_tokens ≠
      (usageFor [⟨Role.user, ""⟩] "a").prompt_tokens +
        (usageFor [⟨Role.user, ""⟩] "a").completion_tokens := by
  refine ⟨by decide, by decide, by decide⟩

/-- C9 (amended): prompt_tokens and completion_tokens are the ceilings
`ceil(len/4)` of the serialized request messages and of the response text;
total_tokens is the ceiling of the combined length, `ceil((lm+lc)/4)`,
which is at most `prompt_tokens + completion_tokens` and is never smaller
than that sum minus 1 — but can differ from the exact sum. -/
theorem claim_C9_usage_block (messages : List Message) (content : String) :
    (usageFor messages content).prompt_tokens =
      (utf16Length (stringifyMessagesCompact messages) + 3) / 4 ∧
    (usageFor messages content).completion_tokens =
      (utf16Length content + 3) / 4 ∧
    (usageFor messages content).total_tokens =
      (utf16Length (stringifyMessagesCompact messages) + utf16Length content + 3) / 4 ∧
    (usageFor messages content).total_tokens ≤
      (usageFor messages content).prompt_tokens +
        (usageFor messages content).completion_tokens ∧
    (usageFor messages content).prompt_tokens +
        (usageFor messages content).completion_tokens ≤
      (usageFor messages content).total_tokens + 1 := by
  have htot : (usageFor messages content).total_tokens =
      (utf16Length (stringifyMessagesCompact messages) + utf16Length content + 3) / 4 := by
    simp [usageFor, estimateTokens, utf16Length_append]
  refine ⟨rfl, rfl, htot, ?_, ?_⟩ <;>
    simp only [usageFor, estimateTokens, utf16Length_append] <;> omega

theorem matchesAt_self_append (n r : List Char) : matchesAt n (n ++ r) = true := by
  induction n with
  | nil => rfl
  | cons c t ih => simp [matchesAt, ih]

theorem occursIn_of_matchesAt {n h : List Char} (hm : matchesAt n h = true) :
    occursIn n h = true := by
  cases h with
  | nil => simpa [occursIn] using hm
  | cons c t => simp [occursIn, hm]

theorem occursIn_cons {n t : List Char} (c : Char) (h : occursIn n t = true) :
    occursIn n (c :: t) = true := by
  simp [occursIn, h]

theorem occursIn_append_left (n pre post : List Char) :
    occursIn n (pre ++ (n ++ post)) = true := by
  induction pre with
  | nil =>
    rw [List.nil_append]
    exact occursIn_of_matchesAt (matchesAt_self_append n post)
  | cons c t ih =>
    rw [List.cons_append]
    exact occursIn_cons c ih

/-- C8 counterexample: for the requested kind "gemini-cli" the factory
throws synchronously, but the message "Gemini CLI adapter not yet
implemented" does not contain the kind string "gemini-cli" — it names the
tool in prose, not the requested kind. -/
theorem claim_C8_counterexample :
    AdapterFactory.create ⟨"gemini-cli", "/runtime", 30000, false, none⟩ =
      .error "Gemini CLI adapter not yet implemented" ∧
    occursIn "gemini-cli".data "Gemini CLI adapter not yet implemented".data = false := by
  refine ⟨rfl, by decide⟩

/-- C8 (amended): for every configuration whose kind is not "claude-code"
the factory raises synchronously at construction time (modelled as
`Except.error`, as opposed to returning an adapter whose use would fail
later); for an unrecognized kind the message contains the requested kind
verbatim, while the reserved kinds "codex" and "gemini-cli" produce the
fixed messages "Codex adapter not yet implemented" and "Gemini CLI adapter
not yet implemented", which name the tool but not the kind string. -/
theorem claim_C8_factory_unknown_kinds (config : AdapterConfig)
    (h : config.type ≠ "claude-code") :
    (∀ a, AdapterFactory.create config ≠ .ok a) ∧
    (config.type = "codex" →
      AdapterFactory.create config = .error "Codex adapter not yet implemented") ∧
    (config.type = "gemini-cli" →
      AdapterFactory.create config = .error "Gemini CLI adapter not yet implemented") ∧
    (config.type ≠ "codex" → config.type ≠ "gemini-cli" →
      AdapterFactory.create config = .error ("Unknown adapter type: " ++ config.type) ∧
      occursIn config.type.data
        ("Unknown adapter type: " ++ config.type).data = true) := by
  refine ⟨?_, ?_, ?_, ?_⟩
  · intro a hok
    rw [AdapterFactory.create, if_neg h] at hok
    by_cases h2 : config.type = "codex"
    · rw [if_pos h2] at hok; exact absurd hok (by simp)
    · rw [if_neg h2] at hok
      by_cases h3 : config.type = "gemini-cli"
      · rw [if_pos h3] at hok; exact absurd hok (by simp)
      · rw [if_neg h3] at hok; exact absurd hok (by simp)
  · intro h2
    rw [AdapterFactory.create, if_neg h, if_pos h2]
  · intro h3
    have h2 : config.type ≠ "codex" := by rw [h3]; decide
    rw [AdapterFactory.create, if_neg h, if_neg h2, if_pos h3]
  · intro h2 h3
    rw [AdapterFactory.create, if_neg h, if_neg h2, if_neg h3]
    refine ⟨rfl, ?_⟩
    have hdata : ("Unknown adapter type: " ++ config.type).data =
        "Unknown adapter type: ".data ++ (config.type.data ++ []) := by
      simp [String.data_append]
    rw [hdata]
    exact occursIn_append_left _ _ _

theorem claim_C8_witness :
    (∀ a, AdapterFactory.create ⟨"foobar", "/runtime", 30000, false, none⟩ ≠ .ok a) ∧
    (("foobar" : String) = "codex" →
      AdapterFactory.create ⟨"foobar", "/runtime", 30000, false, none⟩ =
        .error "Codex adapter not yet implemented") ∧
    (("foobar" : String) = "gemini-cli" →
      AdapterFactory.create ⟨"foobar", "/runtime", 30000, false, none⟩ =
        .error "Gemini CLI adapter not yet implemented") ∧
    (("foobar" : String) ≠ "codex" → ("foobar" : String) ≠ "gemini-cli" →
      AdapterFactory.create ⟨"foobar", "/runtime", 30000, false, none⟩ =
        .error ("Unknown adapter type: " ++ "foobar") ∧
      occursIn "foobar".data ("Unknown adapter type: " ++ "foobar").data = true) :=
  claim_C8_factory_unknown_kinds ⟨"foobar", "/runtime", 30000, false, none⟩ (by decide)

/-- Helper: when the parsed document is neither a string nor `null` and
the candidates branch falls through, `extractFromParsed` continues with
the `text` / `response` / stringify chain. -/
theorem extractFromParsed_eq_chain (j : Json) (h1 : ∀ s, j ≠ Json.str s)
    (h2 : j ≠ Json.null) (hcand : candidatesResult j = none) :
    extractFromParsed j = some (textResponseOrStringify j) := by
  cases j with
  | str s => exact absurd rfl (h1 s)
  | null => exact absurd rfl h2
  | bool b => simp [extractFromParsed, hcand]
  | num raw => simp [extractFromParsed, hcand]
  | arr es => simp [extractFromParsed, hcand]
  | obj fs => simp [extractFromParsed, hcand]

/-- C4 counterexample: on the parsed document of `"{"text":""}"` a
top-level `text` field is present (with value `""`), yet the normalizer
does not return it: `if (parsed.text)` tests truthiness and the empty
string is falsy, so the document is re-serialized instead of returning
`""`. -/
theorem claim_C4_counterexample :
    extractResponse "\x7b\"text\":\"\"\x7d" = .str "\x7b\"text\":\"\"\x7d" ∧
    jGet (Json.obj [("text", Json.str "")]) "text" = some (Json.str "") ∧
    extractResponse "\x7b\"text\":\"\"\x7d" ≠ .str "" := by
  refine ⟨by with_unfolding_all rfl, rfl, ?_⟩
  intro h
  rw [show extractResponse "\x7b\"text\":\"\"\x7d" = .str "\x7b\"text\":\"\"\x7d" from by
    with_unfolding_all rfl] at h
  injection h with h2
  exact absurd h2 (by decide)

/-- C4 (amended): the structured-output normalizer, applied to the
ANSI-stripped trimmed text, satisfies: the three concrete behaviors of the
claim (candidates parts concatenate in array order; `{"text":"hello"}`
returns `"hello"`; non-JSON input falls back to plain-text cleaning); and,
whenever parsing succeeds with a non-null non-string document and the
candidates branch falls through, a present and truthy top-level `text`
field is returned, else a present and truthy top-level `response` field is
returned, else the re-serialized document — a present but falsy (e.g.
empty-string) field falls through.  The embedded function is total: the
caller always receives a value and the normalizer never throws. -/
theorem claim_C4_extract_response :
    extractResponse
        "\x7b\"candidates\":[\x7b\"content\":\x7b\"parts\":[\x7b\"text\":\"A\"\x7d,\x7b\"text\":\"B\"\x7d]\x7d\x7d]\x7d" =
      .str "AB" ∧
    extractResponse "\x7b\"text\":\"hello\"\x7d" = .str "hello" ∧
    extractResponse "hello" = .str "hello" ∧
    (∀ j v : Json, (∀ s, j ≠ Json.str s) → j ≠ Json.null →
      candidatesResult j = none → jGet j "text" = some v → v.truthy = true →
      extractFromParsed j = some v) ∧
    (∀ j v : Json, (∀ s, j ≠ Json.str s) → j ≠ Json.null →
      candidatesResult j = none →
      (jGet j "text" = none ∨
        ∃ v0, jGet j "text" = some v0 ∧ v0.truthy = false) →
      jGet j "response" = some v → v.truthy = true →
      extractFromParsed j = some v) ∧
    (∀ j : Json, (∀ s, j ≠ Json.str s) → j ≠ Json.null →
      candidatesResult j = none →
      (jGet j "text" = none ∨
        ∃ v0, jGet j "text" = some v0 ∧ v0.truthy = false) →
      (jGet j "response" = none ∨
        ∃ v0, jGet j "response" = some v0 ∧ v0.truthy = false) →
      extractFromParsed j = some (.str j.stringifyCompact)) := by
  refine ⟨by with_unfolding_all rfl, by with_unfolding_all rfl,
    by with_unfolding_all rfl, ?_, ?_, ?_⟩
  · intro j v h1 h2 hcand htext hv
    rw [extractFromParsed_eq_chain j h1 h2 hcand, textResponseOrStringify, htext]
    simp [hv]
  · intro j v h1 h2 hcand htext hresp hv
    rw [extractFromParsed_eq_chain j h1 h2 hcand, textResponseOrStringify]
    have hro : responseOrStringify j = v := by
      rw [responseOrStringify, hresp]; simp [hv]
    rcases htext with hnone | ⟨v0, hsome, hfalsy⟩
    · rw [hnone, hro]
    · rw [hsome]
      simp [hfalsy, hro]
  · intro j h1 h2 hcand htext hresp
    rw [extractFromParsed_eq_chain j h1 h2 hcand, textResponseOrStringify]
    have hro : responseOrStringify j = .str j.stringifyCompact := by
      rcases hresp with hnone | ⟨v0, hsome, hfalsy⟩
      · rw [responseOrStringify, hnone]
      · rw [responseOrStringify, hsome]
        simp [hfalsy]
    rcases htext with hnone | ⟨v0, hsome, hfalsy⟩
    · rw [hnone, hro]
    · rw [hsome]
      simp [hfalsy, hro]

theorem claim_C4_witness :
    extractFromParsed (Json.obj [("text", Json.str "x")]) = some (Json.str "x") ∧
    extractFromParsed (Json.obj [("response", Json.str "y")]) =
      some (Json.str "y") ∧
    extractFromParsed (Json.obj [("other", Json.bool true)]) =
      some (.str (Json.obj [("other", Json.bool true)]).stringifyCompact) :=
  ⟨(claim_C4_extract_response).2.2.2.1 _ _ (fun s h => Json.noConfusion h)
      (fun h => Json.noConfusion h) rfl rfl rfl,
    (claim_C4_extract_response).2.2.2.2.1 _ _ (fun s h => Json.noConfusion h)
      (fun h => Json.noConfusion h) rfl (Or.inl rfl) rfl rfl,
    (claim_C4_extract_response).2.2.2.2.2 _ (fun s h => Json.noConfusion h)
      (fun h => Json.noConfusion h) rfl (Or.inl rfl) (Or.inl rfl)⟩

/-! ### Lemmas for the idempotence analysis of cleanOutput -/

theorem stripAnsiL_id : ∀ l : List Char, (∀ c ∈ l, c ≠ '\x1B') → stripAnsiL l = l := by
  intro l
  induction l with
  | nil => intro _; simp [stripAnsiL]
  | cons c rest ih =>
    intro h
    have hc : c ≠ '\x1B' := h c (by simp)
    simp only [stripAnsiL, if_neg hc]
    rw [ih (fun d hd => h d (by simp [hd]))]

theorem removeCrAux_id : ∀ (l pending : List Char), (∀ c ∈ l, c ≠ '\r') →
    removeCrAux pending l = pending.reverse ++ l := by
  intro l
  induction l with
  | nil => intro pending _; simp [removeCrAux]
  | cons c r ih =>
    intro pending h
    have hc : c ≠ '\r' := h c (by simp)
    have hr : ∀ d ∈ r, d ≠ '\r' := fun d hd => h d (by simp [hd])
    rw [removeCrAux]
    by_cases ht : isLineTermChar c = true
    · rw [if_pos ht, if_neg hc, ih [] hr]
      simp
    · rw [if_neg ht, ih (c :: pending) hr]
      simp

theorem removeCrAux_mem : ∀ (l pending : List Char), ∀ c ∈ removeCrAux pending l,
    c ∈ pending ∨ (c ∈ l ∧ c ≠ '\r') := by
  intro l
  induction l with
  | nil =>
    intro pending c hc
    rw [removeCrAux, List.mem_reverse] at hc
    exact Or.inl hc
  | cons d r ih =>
    intro pending c hc
    rw [removeCrAux] at hc
    by_cases ht : isLineTermChar d = true
    · rw [if_pos ht] at hc
      by_cases hd : d = '\r'
      · rw [if_pos hd] at hc
        rcases ih [] c hc with h0 | ⟨h1, h2⟩
        · exact absurd h0 (by simp)
        · exact Or.inr ⟨by simp [h1], h2⟩
      · rw [if_neg hd] at hc
        rcases List.mem_append.mp hc with h0 | h0
        · exact Or.inl (List.mem_reverse.mp h0)
        · rcases List.mem_cons.mp h0 with h1 | h1
          · exact Or.inr ⟨by simp [h1], h1 ▸ hd⟩
          · rcases ih [] c h1 with h2 | ⟨h2, h3⟩
            · exact absurd h2 (by simp)
            · exact Or.inr ⟨by simp [h2], h3⟩
    · rw [if_neg ht] at hc
      have hd : d ≠ '\r' := fun he => ht (by rw [he]; rfl)
      rcases ih (d :: pending) c hc with h0 | ⟨h1, h2⟩
      · rcases List.mem_cons.mp h0 with h1 | h1
        · exact Or.inr ⟨by simp [h1], h1 ▸ hd⟩
        · exact Or.inl h1
      · exact Or.inr ⟨by simp [h1], h2⟩

theorem spinner_id_aux : ∀ n : Nat, ∀ l : List Char, l.length ≤ n →
    ((spinnerFreeStart l = true →
        ∀ pending, spinnerLineStart pending l = pending.reverse ++ l) ∧
      (spinnerFreeMid l = true → midLine l = l)) := by
  intro n
  induction n with
  | zero =>
    intro l hl
    have : l = [] := List.length_eq_zero.mp (Nat.le_zero.mp hl)
    subst this
    exact ⟨fun _ pending => by simp [spinnerLineStart], fun _ => by simp [midLine]⟩
  | succ n ih =>
    intro l hl
    cases l with
    | nil =>
      exact ⟨fun _ pending => by simp [spinnerLineStart], fun _ => by simp [midLine]⟩
    | cons c r =>
      have hr : r.length ≤ n := by simp at hl; omega
      constructor
      · intro hfree pending
        by_cases hws : isJsWs c = true
        · have hfree2 : spinnerFreeStart r = true := by
            rw [spinnerFreeStart, if_pos hws] at hfree
            exact hfree
          rw [spinnerLineStart, if_pos hws, (ih r hr).1 hfree2 (c :: pending)]
          simp
        · have hspin : isSpinnerChar c = false := by
            rw [spinnerFreeStart, if_neg hws] at hfree
            by_cases hs : isSpinnerChar c = true
            · rw [if_pos hs] at hfree; exact absurd hfree (by simp)
            · simpa using hs
          have hmid : spinnerFreeMid r = true := by
            rw [spinnerFreeStart, if_neg hws, if_neg (by simp [hspin])] at hfree
            exact hfree
          rw [spinnerLineStart, if_neg hws, if_neg (by simp [hspin]),
            (ih r hr).2 hmid]
      · intro hfree
        by_cases hterm : isLineTermChar c = true
        · have hfree2 : spinnerFreeStart r = true := by
            rw [spinnerFreeMid, if_pos hterm] at hfree
            exact hfree
          rw [midLine, if_pos hterm, (ih r hr).1 hfree2 []]
          simp
        · have hfree2 : spinnerFreeMid r = true := by
            rw [spinnerFreeMid, if_neg hterm] at hfree
            exact hfree
          rw [midLine, if_neg hterm, (ih r hr).2 hfree2]

theorem spinner_mem_aux : ∀ n : Nat, ∀ l : List Char, l.length ≤ n →
    ((∀ pending c, c ∈ spinnerLineStart pending l → c ∈ pending ∨ c ∈ l) ∧
      (∀ c, c ∈ midLine l → c ∈ l)) := by
  intro n
  induction n with
  | zero =>
    intro l hl
    have : l = [] := List.length_eq_zero.mp (Nat.le_zero.mp hl)
    subst this
    constructor
    · intro pending c hc
      rw [spinnerLineStart, List.mem_reverse] at hc
      exact Or.inl hc
    · intro c hc
      rw [midLine] at hc
      exact hc
  | succ n ih =>
    intro l hl
    cases l with
    | nil =>
      constructor
      · intro pending c hc
        rw [spinnerLineStart, List.mem_reverse] at hc
        exact Or.inl hc
      · intro c hc
        rw [midLine] at hc
        exact hc
    | cons d r =>
      have hr : r.length ≤ n := by simp at hl; omega
      constructor
      · intro pending c hc
        rw [spinnerLineStart] at hc
        by_cases hws : isJsWs d = true
        · rw [if_pos hws] at hc
          rcases (ih r hr).1 (d :: pending) c hc with h0 | h0
          · rcases List.mem_cons.mp h0 with h1 | h1
            · exact Or.inr (by simp [h1])
            · exact Or.inl h1
          · exact Or.inr (by simp [h0])
        · rw [if_neg hws] at hc
          by_cases hs : isSpinnerChar d = true
          · rw [if_pos hs] at hc
            exact Or.imp_right (fun h0 => by simp [(ih r hr).2 c hc])
              (Or.inr ((ih r hr).2 c hc))
          · rw [if_neg hs] at hc
            rcases List.mem_append.mp hc with h0 | h0
            · exact Or.inl (List.mem_reverse.mp h0)
            · rcases List.mem_cons.mp h0 with h1 | h1
              · exact Or.inr (by simp [h1])
              · exact Or.inr (by simp [(ih r hr).2 c h1])
      · intro c hc
        rw [midLine] at hc
        by_cases hterm : isLineTermChar d = true
        · rw [if_pos hterm] at hc
          rcases List.mem_cons.mp hc with h1 | h1
          · simp [h1]
          · rcases (ih r hr).1 [] c h1 with h0 | h0
            · exact absurd h0 (by simp)
            · simp [h0]
        · rw [if_neg hterm] at hc
          rcases List.mem_cons.mp hc with h1 | h1
          · simp [h1]
          · simp [(ih r hr).2 c h1]

theorem dropWhile_dropWhile_same (p : Char → Bool) (l : List Char) :
    (l.dropWhile p).dropWhile p = l.dropWhile p := by
  cases h : l.dropWhile p with
  | nil => rfl
  | cons c t =>
    have hc : p c = false := by
      have h2 := List.head?_dropWhile_not p l
      rw [h] at h2
      simpa using h2
    simp [List.dropWhile_cons, hc]

theorem jsTrimL_mem (l : List Char) : ∀ c ∈ jsTrimL l, c ∈ l := by
  intro c hc
  rw [jsTrimL, List.mem_reverse] at hc
  have h1 := (List.dropWhile_sublist isJsWs).subset hc
  rw [List.mem_reverse] at h1
  exact (List.dropWhile_sublist isJsWs).subset h1

theorem jsTrimL_idem (l : List Char) : jsTrimL (jsTrimL l) = jsTrimL l := by
  have hstepA : (((l.dropWhile isJsWs).reverse.dropWhile isJsWs).reverse).dropWhile isJsWs =
      ((l.dropWhile isJsWs).reverse.dropWhile isJsWs).reverse := by
    cases hbr : ((l.dropWhile isJsWs).reverse.dropWhile isJsWs).reverse with
    | nil => rfl
    | cons c t =>
      have ha : l.dropWhile isJsWs =
          c :: (t ++ ((l.dropWhile isJsWs).reverse.takeWhile isJsWs).reverse) := by
        conv_lhs => rw [← List.reverse_reverse (l.dropWhile isJsWs),
          ← List.takeWhile_append_dropWhile isJsWs (l.dropWhile isJsWs).reverse]
        rw [List.reverse_append, hbr]
        simp
      have hc : isJsWs c = false := by
        have h2 := List.head?_dropWhile_not isJsWs l
        rw [ha] at h2
        simpa using h2
      simp [List.dropWhile_cons, hc]
  show (((((l.dropWhile isJsWs).reverse.dropWhile isJsWs).reverse).dropWhile
      isJsWs).reverse.dropWhile isJsWs).reverse = _
  rw [hstepA, List.reverse_reverse, dropWhile_dropWhile_same]
  rfl

/-- C5 counterexample: `cleanOutput` is not idempotent.  The spinner regex
`/^\s*[\[⠋⠙⠹⠸⠼⠴⠦⠧⠇⠏\]]/gm` removes only one spinner glyph per line
start, so a line starting with two glyphs loses one per application:
`cleanOutput "⠋⠋x" = "⠋x"` but `cleanOutput "⠋x" = "x"`. -/
theorem claim_C5_counterexample :
    cleanOutput (cleanOutput "⠋⠋x") ≠ cleanOutput "⠋⠋x" ∧
    cleanOutput "⠋⠋x" = "⠋x" ∧
    cleanOutput (cleanOutput "⠋⠋x") = "x" := by
  have h2 : cleanOutput "⠋⠋x" = "⠋x" := by with_unfolding_all rfl
  have h3 : cleanOutput "⠋x" = "x" := by with_unfolding_all rfl
  refine ⟨?_, h2, ?_⟩
  · rw [h2, h3]
    decide
  · rw [h2, h3]

/-- C5 (amended): `cleanOutput` is idempotent on every input whose cleaned
form contains no ESC character and gives the spinner regex no further
match (no line start whose first non-whitespace character is a spinner
glyph or square bracket).  In general idempotence fails: a second
application can remove a further leading spinner glyph (see the
counterexample), and removing an ANSI sequence can also splice together a
new one.  The other two stages are already stable after one application:
the cleaned form never contains a carriage return and is trimmed. -/
theorem claim_C5_cleanOutput_conditionally_idempotent (s : String)
    (h1 : ∀ c ∈ (cleanOutput s).data, c ≠ '\x1B')
    (h2 : spinnerFreeStart (cleanOutput s).data = true) :
    cleanOutput (cleanOutput s) = cleanOutput s := by
  have hnocr : ∀ c ∈ (cleanOutput s).data, c ≠ '\r' := by
    intro c hc
    have hc1 : c ∈ spinnerLineStart [] (removeCrAux [] (stripAnsiL s.data)) :=
      jsTrimL_mem _ c hc
    have hc2 : c ∈ removeCrAux [] (stripAnsiL s.data) := by
      rcases (spinner_mem_aux (removeCrAux [] (stripAnsiL s.data)).length _
          (le_refl _)).1 [] c hc1 with h0 | h0
      · exact absurd h0 (by simp)
      · exact h0
    rcases removeCrAux_mem _ [] c hc2 with h0 | ⟨_, hne⟩
    · exact absurd h0 (by simp)
    · exact hne
  have hstrip : stripAnsiL (cleanOutput s).data = (cleanOutput s).data :=
    stripAnsiL_id _ h1
  have hcr : removeCrAux [] (cleanOutput s).data = (cleanOutput s).data := by
    rw [removeCrAux_id _ [] hnocr]
    simp
  have hspin : spinnerLineStart [] (cleanOutput s).data = (cleanOutput s).data := by
    rw [(spinner_id_aux (cleanOutput s).data.length _ (le_refl _)).1 h2 []]
    simp
  have htrim : jsTrimL (cleanOutput s).data = (cleanOutput s).data :=
    jsTrimL_idem (removeSpinnerMarks (removeCrSegments (stripAnsiL s.data)))
  show (⟨cleanOutputL (cleanOutput s).data⟩ : String) = cleanOutput s
  rw [cleanOutputL, removeCrSegments, removeSpinnerMarks, hstrip, hcr, hspin, htrim]

theorem claim_C5_witness :
    cleanOutput (cleanOutput "  hi\rthere  ") = cleanOutput "  hi\rthere  " := by
  have hev : cleanOutput "  hi\rthere  " = "there" := by with_unfolding_all rfl
  exact claim_C5_cleanOutput_conditionally_idempotent "  hi\rthere  "
    (by rw [hev]; decide) (by rw [hev]; with_unfolding_all rfl)

end CliAdapter
